import Mathlib

/-!
Verification of the MLB-scraper repository (schedule extraction pipeline,
staleness gate, sink writers, day-sample date matching, odds team-code map).

The Python sources are shallowly embedded: BeautifulSoup queries on a game
paragraph are modelled by a `Fragment` structure holding the query results
(flattened text, time span, team links, raw markup); the regular expressions
of the sources are embedded as executable scanners over `List Char`;
file-system effects are modelled by explicit state passing.
-/

namespace MLBScraper

/-! ## Character and string utilities -/

/-- Apostrophe character (U+0027). -/
def apos : Char := Char.ofNat 39

/-- Double-quote character (U+0022). -/
def dquote : Char := Char.ofNat 34

/-- The placeholder heading text, `Today's Games`, from
`mlb_schedule_scraper.py` line 30. -/
def todaysGames : String := ("Today".push apos) ++ "s Games"

/-- Containment of one character list in another as a contiguous
infix (Python `sub in s`). -/
def containsSub (w : List Char) : List Char → Bool
  | [] => w.isEmpty
  | c :: rest => (w.isPrefixOf (c :: rest)) || containsSub w rest

/-- Value of a list of decimal digit characters (Python `int` applied to
the digit group captured by a regex). -/
def digitsVal (ds : List Char) : Nat :=
  ds.foldl (fun a c => 10 * a + (c.toNat - 48)) 0

/-- Embedding of `re.findall(r'\((\d+)\)', text)` followed by `int` on each
capture: the values of the non-overlapping parenthesized digit groups of
`text`, leftmost first.  The second argument is the scanner state: `none`
when no candidate match is open, `some ds` when a `(` has been passed and
`ds` are the digits read since.  On a character that can neither extend nor
close the open candidate, the scan restarts — only `(` can begin a match,
so restarting at the failing character is equivalent to the regex engine's
restart just after the failed `(`. -/
def scanScores : List Char → Option (List Char) → List Nat
  | [], _ => []
  | c :: rest, none =>
      if c = '(' then scanScores rest (some []) else scanScores rest none
  | c :: rest, some ds =>
      if c.isDigit then scanScores rest (some (ds ++ [c]))
      else if c = ')' && !ds.isEmpty then digitsVal ds :: scanScores rest none
      else if c = '(' then scanScores rest (some [])
      else scanScores rest none

/-! ## Data model of the extractor (`mlb_schedule_scraper.py`) -/

/-- One game paragraph (`<p class="game">`) as the extractor queries it:
the element's class list, its flattened text (`get_text()`), the stripped
text of its first `<span tz="E">` if any, the stripped texts of its
`<a href=~/teams/[A-Z]+/>` links in document order, and `str(element)`. -/
structure Fragment where
  classes : List String
  text : String
  timeSpan : Option String
  teamLinks : List String
  raw : String
deriving DecidableEq

/-- One element of `soup.find_all(['h3', 'p'])`, in document order. -/
inductive Elem where
  | h3 (text : String)
  | para (frag : Fragment)
deriving DecidableEq

/-- One game record, as built in `get_all_games_from_schedule`. -/
structure GameRecord where
  date : String
  team1 : Option String
  team2 : Option String
  score1 : Option Nat
  score2 : Option Nat
  time : Option String
  game_type : Option String
  raw_html : String
  text_content : String
deriving DecidableEq

/-- Python truthiness test `if not current_date` on the running date
context: `None` and the empty string are falsy. -/
def currentFalsy : Option String → Bool
  | none => true
  | some s => decide (s = "")

/-- The year substring tested by the extractor (line 32). -/
def year2025 : String := "2025"

/-- The exhibition marker `(Spring)` tested at line 38. -/
def springMarker : String := "(Spring)"

/-- The `game` CSS class tested at line 34. -/
def gameClass : String := "game"

/-- Processing of one `h3` heading (lines 28-33): the placeholder adopts
today's date; otherwise a truthy text containing a comma and the substring
`2025` is adopted verbatim; any other text leaves the context unchanged. -/
def headingStep (today : String) (t : String) (cur : Option String) : Option String :=
  if t = todaysGames then some today
  else if (!(t = "" : Bool)) && (t.toList.contains ',') && containsSub year2025.toList t.toList then
    some t
  else cur

/-- Field normalization of one game paragraph that reached line 41 (the
record construction): teams from the first two team links (line 59-61,
`None` and no record when fewer than two), scores from the parenthesized
integer tokens of the flattened text (lines 63-69), time from the
time-zone-tagged span (lines 53-55), `game_type` never assigned. -/
def normalizeFragment (date : String) (f : Fragment) : Option GameRecord :=
  match f.teamLinks with
  | t1 :: t2 :: _ =>
      let scores := scanScores f.text.toList none
      let s : Option Nat × Option Nat :=
        if 2 ≤ scores.length then (scores.get? 0, scores.get? 1)
        else if scores.length = 1 then (scores.get? 0, none)
        else (none, none)
      some { date := date, team1 := some t1, team2 := some t2,
             score1 := s.1, score2 := s.2, time := f.timeSpan,
             game_type := none, raw_html := f.raw, text_content := f.text }
  | _ => none

/-- The element loop of `get_all_games_from_schedule` (lines 27-71),
carrying the running date context.  A paragraph is processed only if its
class list contains `game`; it is skipped when the context is falsy or the
text contains the exhibition marker; otherwise it is normalized and the
record appended when two team links resolve. -/
def extractGo (today : String) : Option String → List Elem → List GameRecord
  | _, [] => []
  | cur, Elem.h3 t :: rest => extractGo today (headingStep today t cur) rest
  | cur, Elem.para f :: rest =>
      if f.classes.contains gameClass then
        if currentFalsy cur then extractGo today cur rest
        else if containsSub springMarker.toList f.text.toList then extractGo today cur rest
        else
          match normalizeFragment (cur.getD "") f with
          | some r => r :: extractGo today cur rest
          | none => extractGo today cur rest
      else extractGo today cur rest

/-- `get_all_games_from_schedule` on an already-parsed document.  `today`
is the ambient wall-clock date string formed at line 24
(`datetime.now().strftime(...)`), passed explicitly in the embedding. -/
def get_all_games_from_schedule (today : String) (doc : List Elem) : List GameRecord :=
  extractGo today none doc

/-! ## Staleness gate (`update_csv_from_html`, lines 112-175) -/

/-- File-system facts the gate reads: existence and modification time of
the source HTML file and of the CSV output.  Python mtimes are floats;
only their linear order matters, so they are embedded as integers. -/
structure GateState where
  htmlExists : Bool
  htmlMtime : Int
  csvExists : Bool
  csvMtime : Int
deriving DecidableEq

/-- Observable outcome of one `update_csv_from_html` call: the boolean the
function returns, whether extraction was performed (control reached line
141), whether the sinks were written and the output timestamp aligned
(lines 161-164), and the CSV file's existence and mtime afterwards. -/
structure GateResult where
  retval : Bool
  extracted : Bool
  wrote : Bool
  csvExistsAfter : Bool
  csvMtimeAfter : Int
deriving DecidableEq

/-- `update_csv_from_html`: missing source aborts (lines 119-121); the
staleness test at line 135 skips when not forced, the CSV exists and the
source is not strictly newer; otherwise games are extracted, an empty
extraction aborts (lines 143-145), and a non-empty one is written and the
CSV mtime set to the source mtime by `os.utime` (line 164).  The pandas
read-back of the previous CSV (lines 150-159) feeds no output and is
omitted. -/
def update_csv_from_html (today : String) (doc : List Elem) (force_update : Bool)
    (st : GateState) : GateResult :=
  if !st.htmlExists then
    { retval := false, extracted := false, wrote := false,
      csvExistsAfter := st.csvExists, csvMtimeAfter := st.csvMtime }
  else if !force_update && st.csvExists && decide (st.htmlMtime ≤ st.csvMtime) then
    { retval := true, extracted := false, wrote := false,
      csvExistsAfter := st.csvExists, csvMtimeAfter := st.csvMtime }
  else
    let games := get_all_games_from_schedule today doc
    if games.isEmpty then
      { retval := false, extracted := true, wrote := false,
        csvExistsAfter := st.csvExists, csvMtimeAfter := st.csvMtime }
    else
      { retval := true, extracted := true, wrote := true,
        csvExistsAfter := true, csvMtimeAfter := st.htmlMtime }

/-! ## Sink writers (`save_to_csv` lines 75-99, `save_to_json` lines 101-110) -/

/-- File system as an association of paths to contents. -/
def FS : Type := List (String × String)

/-- Overwrite of one path. -/
def fsWrite (fs : FS) (path content : String) : FS :=
  (path, content) :: fs.filter (fun e => !(e.1 = path))

/-- Embedding of `re.sub(r'<[^>]+>', '', s)`: each non-overlapping `<`,
one-or-more non-`>` characters, `>` group is removed. -/
def stripTags : List Char → List Char
  | [] => []
  | c :: rest =>
      if c = '<' then
        let inner := rest.takeWhile (fun d => !(d = '>'))
        match h : rest.drop inner.length with
        | '>' :: after =>
            if inner.isEmpty then c :: stripTags rest else stripTags after
        | _ => c :: stripTags rest
      else c :: stripTags rest
termination_by s => s.length
decreasing_by
  · simp only [List.length_cons]; omega
  · simp only [List.length_cons]
    have hlen := congrArg List.length h
    simp only [List.length_drop, List.length_cons] at hlen
    omega
  · simp only [List.length_cons]; omega
  · simp only [List.length_cons]; omega

/-- Embedding of `re.sub(r'\s+', ' ', s)`: each maximal whitespace run
becomes one space.  The boolean tracks whether the previous character was
part of a run. -/
def collapseWsGo : List Char → Bool → List Char
  | [], _ => []
  | c :: rest, prevWs =>
      if c.isWhitespace then
        if prevWs then collapseWsGo rest true else ' ' :: collapseWsGo rest true
      else c :: collapseWsGo rest false

/-- Python `str.strip()` restricted to whitespace. -/
def stripEnds (s : List Char) : List Char :=
  ((s.dropWhile Char.isWhitespace).reverse.dropWhile Char.isWhitespace).reverse

/-- The cleaning applied to `text_content` at lines 88-89. -/
def cleanText (s : String) : String :=
  String.mk (stripEnds (collapseWsGo (stripTags s.toList) false))

/-- The fixed CSV column set (line 81). -/
def fieldnames : List String :=
  ["date", "team1", "team2", "score1", "score2", "time", "game_type", "text_content"]

/-- Python `csv` rendering of an optional string field: `None` becomes the
empty cell. -/
def optStrCell : Option String → String
  | none => ""
  | some s => s

/-- Python `csv` rendering of an optional integer field. -/
def optNatCell : Option Nat → String
  | none => ""
  | some n => Nat.repr n

/-- Default `csv` module quoting: a cell containing a separator, quote or
line break is quoted, with embedded quotes doubled. -/
def csvEscape (s : String) : String :=
  if s.toList.any (fun c => c = ',' || c = dquote || c = '\n' || c = '\r') then
    String.mk (dquote :: s.toList.foldr
      (fun c acc => if c = dquote then dquote :: dquote :: acc else c :: acc) [dquote])
  else s

/-- One CSV row in the order of `fieldnames`, with the cleaned text. -/
def csvRow (g : GameRecord) : String :=
  String.intercalate ("," : String)
    ([g.date, optStrCell g.team1, optStrCell g.team2, optNatCell g.score1,
      optNatCell g.score2, optStrCell g.time, optStrCell g.game_type,
      cleanText g.text_content].map csvEscape)

/-- The whole CSV file: header row then one row per game, CRLF-terminated
lines as the `csv` module writes them. -/
def renderCsv (games : List GameRecord) : String :=
  String.intercalate ("\r\n" : String)
    ((String.intercalate ("," : String) fieldnames) :: games.map csvRow) ++ "\r\n"

/-- JSON string escaping (quotes, backslashes and line breaks suffice for
the fields at hand). -/
def jsonEscape (s : String) : String :=
  String.mk (dquote :: s.toList.foldr
    (fun c acc =>
      if c = dquote || c = '\\' then '\\' :: c :: acc
      else if c = '\n' then '\\' :: 'n' :: acc
      else if c = '\r' then '\\' :: 'r' :: acc
      else c :: acc) [dquote])

/-- JSON rendering of an optional string field (`null` for `None`). -/
def jsonOptStr : Option String → String
  | none => "null"
  | some s => jsonEscape s

/-- JSON rendering of an optional integer field. -/
def jsonOptNat : Option Nat → String
  | none => "null"
  | some n => Nat.repr n

/-- One game as a JSON object with every field of the record, in
construction order (lines 41-51). -/
def jsonGame (g : GameRecord) : String :=
  "\x7b" ++ String.intercalate (", " : String)
    [jsonEscape ("date") ++ ": " ++ jsonEscape g.date,
     jsonEscape ("team1") ++ ": " ++ jsonOptStr g.team1,
     jsonEscape ("team2") ++ ": " ++ jsonOptStr g.team2,
     jsonEscape ("score1") ++ ": " ++ jsonOptNat g.score1,
     jsonEscape ("score2") ++ ": " ++ jsonOptNat g.score2,
     jsonEscape ("time") ++ ": " ++ jsonOptStr g.time,
     jsonEscape ("game_type") ++ ": " ++ jsonOptStr g.game_type,
     jsonEscape ("raw_html") ++ ": " ++ jsonEscape g.raw_html,
     jsonEscape ("text_content") ++ ": " ++ jsonEscape g.text_content] ++ "\x7d"

/-- The whole JSON file: the list of games. -/
def renderJson (games : List GameRecord) : String :=
  "[" ++ String.intercalate (", " : String) (games.map jsonGame) ++ "]"

/-- The informational message printed by both writers on an empty input. -/
def noGamesMsg : String := "No games found to save"

/-- `save_to_csv` (lines 75-99) over the file-system model: an empty game
list prints the informational message and returns without touching the
file system; otherwise the rendered CSV is written and a summary printed.
The result pairs the file system after the call with the printed lines. -/
def save_to_csv (games : List GameRecord) (output_file : String) (fs : FS) :
    FS × List String :=
  if games.isEmpty then (fs, [noGamesMsg])
  else (fsWrite fs output_file (renderCsv games),
        ["Saved " ++ Nat.repr games.length ++ " games to " ++ output_file])

/-- `save_to_json` (lines 101-110) over the file-system model, with the
same empty-input guard. -/
def save_to_json (games : List GameRecord) (output_file : String) (fs : FS) :
    FS × List String :=
  if games.isEmpty then (fs, [noGamesMsg])
  else (fsWrite fs output_file (renderJson games),
        ["Saved " ++ Nat.repr games.length ++ " games to " ++ output_file])

/-! ## Day-sample date matching (`day_sample.py`, `get_games_for_date`
lines 120-147) -/

/-- Python `\w` on the ASCII range: letters, digits, underscore. -/
def isWordChar (c : Char) : Bool := c.isAlphanum || c = '_'

/-- Word-character test at an index, out-of-range counting as non-word. -/
def wordAt (s : List Char) (i : Nat) : Bool :=
  match s.get? i with
  | some c => isWordChar c
  | none => false

/-- Python `\b` at index `i` of `s`: the word-character statuses on the
two sides of the position differ. -/
def boundaryAt (s : List Char) (i : Nat) : Bool :=
  (if i = 0 then false else wordAt s (i - 1)) != wordAt s i

/-- Start indices at which the literal token `w` occurs in `s` flanked by
`\b` boundaries. -/
def boundedOccs (s w : List Char) : List Nat :=
  (List.range (s.length + 1)).filter
    (fun i => w.isPrefixOf (s.drop i) && boundaryAt s i && boundaryAt s (i + w.length))

/-- No newline in `s` between indices `a` (inclusive) and `b` (exclusive):
the region a `.*` must cross, since `.` does not match a newline. -/
def noNewlineBetween (s : List Char) (a b : Nat) : Bool :=
  ((s.drop a).take (b - a)).all (fun c => !(c = '\n'))

/-- Embedding of `re.search(rf'\b{m}\b.*\b{d}\b.*\b{y}\b', s)` for tokens
`m`, `d`, `y` taken as literal text (the date tokens of the claim's scope
contain no regex metacharacters): three boundary-flanked occurrences in
order, separated by newline-free gaps. -/
def tier1Match (s m d y : List Char) : Bool :=
  (boundedOccs s m).any (fun i =>
    (boundedOccs s d).any (fun j =>
      (boundedOccs s y).any (fun k =>
        decide (i + m.length ≤ j) && decide (j + d.length ≤ k) &&
        noNewlineBetween s (i + m.length) j && noNewlineBetween s (j + d.length) k)))

/-- Python `str.lower()` on the characters (ASCII case folding). -/
def lowerChars (s : List Char) : List Char := s.map Char.toLower

/-- Python `str.split()` with no argument: split on whitespace runs,
dropping empty pieces.  The accumulator holds the current word reversed. -/
def splitWsGo : List Char → List Char → List (List Char)
  | [], acc => if acc.isEmpty then [] else [acc.reverse]
  | c :: rest, acc =>
      if c.isWhitespace then
        if acc.isEmpty then splitWsGo rest [] else acc.reverse :: splitWsGo rest []
      else splitWsGo rest (c :: acc)

/-- Python `str.split()` with no argument. -/
def splitWs (s : List Char) : List (List Char) := splitWsGo s []

/-- Python `day.replace(',', '')` at line 131. -/
def removeCommas (s : List Char) : List Char := s.filter (fun c => !(c = ','))

/-- Lines 135-136: one leading zero is stripped from the day token. -/
def stripLeadZero : List Char → List Char
  | '0' :: rest => rest
  | s => s

/-- Per-section decision of lines 127-147: when the lowercased target
splits into at least three whitespace-separated parts, the word-boundary
regex over month, comma-stripped zero-stripped day, and year is used;
otherwise plain substring containment of the target in the section date.
The first match arm is exactly the `len(target_parts) >= 3` test. -/
def sectionMatches (targetLower sectionLower : List Char) : Bool :=
  match splitWs targetLower with
  | m :: d :: y :: _ => tier1Match sectionLower m (stripLeadZero (removeCommas d)) y
  | _ => containsSub targetLower sectionLower

/-- The section loop of lines 124-147, appending matching section dates. -/
def matchingGo (targetLower : List Char) : List String → List String
  | [] => []
  | s :: rest =>
      if sectionMatches targetLower (lowerChars s.toList) then
        s :: matchingGo targetLower rest
      else matchingGo targetLower rest

/-- The `matching_sections` computation of `get_games_for_date`: the
target is lowercased once (line 121) and every section's date heading is
tested. -/
def matchingSections (target_date : String) (sectionDates : List String) : List String :=
  matchingGo (lowerChars target_date.toList) sectionDates

/-- Tier-1 alone as a predicate on a section date, for stating the
two-tier policy. -/
def tier1SectionPred (targetLower sectionLower : List Char) : Bool :=
  match splitWs targetLower with
  | m :: d :: y :: _ => tier1Match sectionLower m (stripLeadZero (removeCommas d)) y
  | _ => false

/-- Modelled from the claim's words, for comparison with the code: apply
tier 1 (the token-bounded month/day/year regex) to every section first,
and only if it yields zero matches fall back to tier 2 (plain substring
matching). -/
def specTwoTierSections (target_date : String) (sectionDates : List String) : List String :=
  let tl := lowerChars target_date.toList
  let tier1 := sectionDates.filter (fun s => tier1SectionPred tl (lowerChars s.toList))
  if tier1.isEmpty then
    sectionDates.filter (fun s => containsSub tl (lowerChars s.toList))
  else tier1

/-! ## Odds peripheral (`odds_scrape.py`) -/

/-- The fixed team-name-to-code table (lines 7-74), in source order. -/
def TEAM_CODE_MAP : List (String × String) :=
  [("Arizona Diamondbacks", "ARI"), ("Arizona", "ARI"),
   ("Atlanta Braves", "ATL"), ("Atlanta", "ATL"),
   ("Baltimore Orioles", "BAL"), ("Baltimore", "BAL"),
   ("Boston Red Sox", "BOS"), ("Boston", "BOS"),
   ("Chicago White Sox", "CWS"), ("Chi. White Sox", "CWS"), ("White Sox", "CWS"),
   ("Chicago Cubs", "CHC"), ("Chi. Cubs", "CHC"), ("Cubs", "CHC"),
   ("Cincinnati Reds", "CIN"), ("Cincinnati", "CIN"),
   ("Cleveland Guardians", "CLE"), ("Cleveland", "CLE"),
   ("Colorado Rockies", "COL"), ("Colorado", "COL"),
   ("Detroit Tigers", "DET"), ("Detroit", "DET"),
   ("Houston Astros", "HOU"), ("Houston", "HOU"),
   ("Kansas City Royals", "KC"), ("Kansas City", "KC"),
   ("Los Angeles Angels", "LAA"), ("LA Angels", "LAA"), ("Angels", "LAA"),
   ("Los Angeles Dodgers", "LAD"), ("LA Dodgers", "LAD"), ("Dodgers", "LAD"),
   ("Miami Marlins", "MIA"), ("Miami", "MIA"),
   ("Milwaukee Brewers", "MIL"), ("Milwaukee", "MIL"),
   ("Minnesota Twins", "MIN"), ("Minnesota", "MIN"),
   ("New York Yankees", "NYY"), ("NY Yankees", "NYY"), ("Yankees", "NYY"),
   ("New York Mets", "NYM"), ("NY Mets", "NYM"), ("Mets", "NYM"),
   ("Oakland Athletics", "OAK"), ("Oakland", "OAK"),
   ("Philadelphia Phillies", "PHI"), ("Philadelphia", "PHI"),
   ("Pittsburgh Pirates", "PIT"), ("Pittsburgh", "PIT"),
   ("San Diego Padres", "SD"), ("San Diego", "SD"),
   ("San Francisco Giants", "SF"), ("San Francisco", "SF"),
   ("Seattle Mariners", "SEA"), ("Seattle", "SEA"),
   ("St. Louis Cardinals", "STL"), ("St. Louis", "STL"),
   ("Tampa Bay Rays", "TB"), ("Tampa Bay", "TB"),
   ("Texas Rangers", "TEX"), ("Texas", "TEX"),
   ("Toronto Blue Jays", "TOR"), ("Toronto", "TOR"),
   ("Washington Nationals", "WSH"), ("Washington", "WSH")]

/-- First-match association lookup.  The table's keys are pairwise
distinct, so this coincides with the Python dict built from the literal. -/
def lookupCode : List (String × String) → String → Option String
  | [], _ => none
  | (k, v) :: rest, n => if k = n then some v else lookupCode rest n

/-- `TEAM_CODE_MAP.get(name, name)` as used at lines 95-96. -/
def teamCode (name : String) : String :=
  match lookupCode TEAM_CODE_MAP name with
  | some c => c
  | none => name

/-! ## Spec-side definitions for refinement comparisons -/

/-- The score-assignment policy as the claim states it: zero tokens leave
both scores unset, one token sets only the first, two or more set the
first two in order and ignore the rest. -/
def assignScores : List Nat → Option Nat × Option Nat
  | [] => (none, none)
  | [a] => (some a, none)
  | a :: b :: _ => (some a, some b)

/-- Lengths of the maximal decimal-digit runs of a character list; the
accumulator is the length of the run currently open. -/
def digitRunsGo : List Char → Nat → List Nat
  | [], 0 => []
  | [], n + 1 => [n + 1]
  | c :: rest, n =>
      if c.isDigit then digitRunsGo rest (n + 1)
      else if n = 0 then digitRunsGo rest 0 else n :: digitRunsGo rest 0

/-- Modelled from the claim's words, for comparison with the code: a
heading is adopted when its text contains a comma and a four-digit year
token, a maximal run of exactly four decimal digits. -/
def specAdoptHeading (t : String) : Bool :=
  (t.toList.contains ',') && (digitRunsGo t.toList 0).contains 4

/-- Whether an `h3` heading text sets the active date context in
`get_all_games_from_schedule` (either branch of lines 30-33). -/
def headingSets (t : String) : Bool :=
  (t = todaysGames : Bool) ||
    ((!(t = "" : Bool)) && (t.toList.contains ',') && containsSub year2025.toList t.toList)

/-- An element that leaves the active date context unchanged: a heading
that sets no date, or any paragraph. -/
def elemNonSetting : Elem → Bool
  | Elem.h3 t => !headingSets t
  | Elem.para _ => true

/-! ## Concrete inputs used by the witnesses -/

/-- A regular date heading as it appears in the schedule. -/
def dateEx : String := "Thursday, March 27, 2025"

/-- A completed game paragraph with two team links and three parenthesized
tokens (the third is ignored by the normalizer). -/
def fragEx : Fragment :=
  { classes := ["game"], text := "Guardians (3) @ Mets (5) (7)", timeSpan := none,
    teamLinks := ["Guardians", "Mets"], raw := "<p class=\x22game\x22>frag</p>" }

/-- A two-element document: one date heading, one game paragraph. -/
def docEx : List Elem := [Elem.h3 dateEx, Elem.para fragEx]

/-- The record `docEx` extracts. -/
def recEx : GameRecord :=
  { date := dateEx, team1 := some ("Guardians"), team2 := some ("Mets"),
    score1 := some 3, score2 := some 5, time := none, game_type := none,
    raw_html := fragEx.raw, text_content := fragEx.text }

/-- A document whose headings set no date context (no comma in the first,
no comma next to the year in the second) but which contains game
paragraphs. -/
def docNoDatesEx : List Elem :=
  [Elem.h3 ("MLB Schedule"), Elem.para fragEx, Elem.h3 ("Season 2025"), Elem.para fragEx]

/-- A heading with a comma and the four-digit year 2024: the claim's
condition holds, the code's does not. -/
def cexHeading : String := "Monday, June 1, 2024"

/-- A heading the code does adopt. -/
def adoptedHeadingEx : String := "Wednesday, April 2, 2025"

/-- Gate state for the witness: source present and strictly newer than the
existing output. -/
def gateStEx : GateState :=
  { htmlExists := true, htmlMtime := 100, csvExists := true, csvMtime := 50 }

/-- The day-sample target date of the counterexample, in the very format
the script's own usage example suggests (`--date 'August 04, 2025'`). -/
def c5Target : String := "August 04, 2025"

/-- One schedule section whose date heading is exactly the target. -/
def c5SectionDates : List String := [c5Target]

/-! ## Helper lemmas -/

/-- A record produced by the normalizer carries the first two team links
and has `game_type` unset; its scores follow the token-count policy. -/
lemma normalizeFragment_some {date : String} {f : Fragment} {r : GameRecord}
    (h : normalizeFragment date f = some r) :
    r.team1 ≠ none ∧ r.team2 ≠ none ∧ r.game_type = none := by
  unfold normalizeFragment at h
  rcases hL : f.teamLinks with _ | ⟨t1, _ | ⟨t2, ts⟩⟩ <;> rw [hL] at h
  · exact absurd h (by simp)
  · exact absurd h (by simp)
  · simp only [Option.some.injEq] at h
    subst h
    exact ⟨by simp, by simp, rfl⟩

/-- Every record in the extractor's output was produced by the normalizer
on some fragment under some date context. -/
lemma mem_extractGo {today : String} :
    ∀ {doc : List Elem} {cur : Option String} {r : GameRecord},
      r ∈ extractGo today cur doc →
      ∃ d f, normalizeFragment d f = some r := by
  intro doc
  induction doc with
  | nil => intro cur r h; simp [extractGo] at h
  | cons e rest ih =>
    intro cur r h
    cases e with
    | h3 t =>
      rw [show extractGo today cur (Elem.h3 t :: rest)
            = extractGo today (headingStep today t cur) rest from rfl] at h
      exact ih h
    | para f =>
      rw [show extractGo today cur (Elem.para f :: rest)
            = if f.classes.contains gameClass then
                if currentFalsy cur then extractGo today cur rest
                else if containsSub springMarker.toList f.text.toList then
                  extractGo today cur rest
                else
                  match normalizeFragment (cur.getD "") f with
                  | some r => r :: extractGo today cur rest
                  | none => extractGo today cur rest
              else extractGo today cur rest from rfl] at h
      by_cases hc : f.classes.contains gameClass
      · rw [if_pos hc] at h
        by_cases hf : currentFalsy cur
        · rw [if_pos hf] at h; exact ih h
        · rw [if_neg hf] at h
          by_cases hs : containsSub springMarker.toList f.text.toList
          · rw [if_pos hs] at h; exact ih h
          · rw [if_neg hs] at h
            rcases hn : normalizeFragment (cur.getD "") f with _ | r'
            · rw [hn] at h; exact ih h
            · rw [hn] at h
              rcases List.mem_cons.mp h with rfl | hmem
              · exact ⟨cur.getD "", f, hn⟩
              · exact ih hmem
      · rw [if_neg hc] at h; exact ih h

/-- A heading that sets no date context leaves it unchanged. -/
lemma headingStep_non_setting {today t : String} {cur : Option String}
    (h : headingSets t = false) : headingStep today t cur = cur := by
  unfold headingSets at h
  unfold headingStep
  rcases Bool.or_eq_false_iff.mp h with ⟨h1, h2⟩
  rw [if_neg (of_decide_eq_false h1),
      if_neg (by simp only [h2]; exact Bool.false_ne_true)]

/-- Under a falsy date context, a document whose headings all set no date
context extracts nothing. -/
lemma extractGo_no_dates {today : String} :
    ∀ {doc : List Elem} {cur : Option String}, currentFalsy cur = true →
      (∀ e ∈ doc, elemNonSetting e = true) → extractGo today cur doc = [] := by
  intro doc
  induction doc with
  | nil => intro cur _ _; rfl
  | cons e rest ih =>
    intro cur hcur hall
    have he := hall e (List.mem_cons_self e rest)
    have hrest : ∀ e ∈ rest, elemNonSetting e = true :=
      fun x hx => hall x (List.mem_cons_of_mem e hx)
    cases e with
    | h3 t =>
      have hset : headingSets t = false := by
        simpa [elemNonSetting] using he
      rw [show extractGo today cur (Elem.h3 t :: rest)
            = extractGo today (headingStep today t cur) rest from rfl,
          headingStep_non_setting hset]
      exact ih hcur hrest
    | para f =>
      rw [show extractGo today cur (Elem.para f :: rest)
            = if f.classes.contains gameClass then
                if currentFalsy cur then extractGo today cur rest
                else if containsSub springMarker.toList f.text.toList then
                  extractGo today cur rest
                else
                  match normalizeFragment (cur.getD "") f with
                  | some r => r :: extractGo today cur rest
                  | none => extractGo today cur rest
              else extractGo today cur rest from rfl]
      by_cases hc : f.classes.contains gameClass
      · rw [if_pos hc, if_pos hcur]; exact ih hcur hrest
      · rw [if_neg hc]; exact ih hcur hrest

/-- First-match lookup agrees with membership when the keys are distinct. -/
lemma lookupCode_of_mem :
    ∀ {l : List (String × String)} {k v : String},
      (l.map Prod.fst).Nodup → (k, v) ∈ l → lookupCode l k = some v := by
  intro l
  induction l with
  | nil => intro k v _ hm; simp at hm
  | cons p rest ih =>
    obtain ⟨pk, pv⟩ := p
    intro k v hnd hm
    rw [List.map_cons, List.nodup_cons] at hnd
    rcases List.mem_cons.mp hm with heq | hmem
    · cases heq
      simp [lookupCode]
    · by_cases hk : pk = k
      · exfalso
        apply hnd.1
        rw [hk]
        exact List.mem_map.mpr ⟨(k, v), hmem, rfl⟩
      · simp only [lookupCode, if_neg hk]
        exact ih hnd.2 hmem

/-- First-match lookup misses when the key is absent. -/
lemma lookupCode_of_not_mem :
    ∀ {l : List (String × String)} {k : String},
      k ∉ l.map Prod.fst → lookupCode l k = none := by
  intro l
  induction l with
  | nil => intro k _; rfl
  | cons p rest ih =>
    obtain ⟨pk, pv⟩ := p
    intro k hk
    rw [List.map_cons] at hk
    have hne : ¬ pk = k := by
      intro h
      apply hk
      rw [← h]
      exact List.mem_cons_self _ _
    simp only [lookupCode, if_neg hne]
    exact ih (fun h => hk (List.mem_cons_of_mem _ h))

/-- Per-section decision, factored by the target's token count. -/
lemma sectionMatches_eq (tl sl : List Char) :
    sectionMatches tl sl =
      if 3 ≤ (splitWs tl).length then tier1SectionPred tl sl
      else containsSub tl sl := by
  rcases hsp : splitWs tl with _ | ⟨m, _ | ⟨d, _ | ⟨y, ps⟩⟩⟩ <;>
    simp [sectionMatches, tier1SectionPred, hsp]

/-- The section loop factored by the target's token count. -/
lemma matchingGo_eq (tl : List Char) (sections : List String) :
    matchingGo tl sections =
      if 3 ≤ (splitWs tl).length then
        sections.filter (fun s => tier1SectionPred tl (lowerChars s.toList))
      else
        sections.filter (fun s => containsSub tl (lowerChars s.toList)) := by
  induction sections with
  | nil => by_cases h3 : 3 ≤ (splitWs tl).length <;> simp [matchingGo, h3]
  | cons s rest ih =>
    simp only [matchingGo, sectionMatches_eq]
    rw [ih]
    by_cases h3 : 3 ≤ (splitWs tl).length
    · simp [h3, List.filter_cons]
    · simp [h3, List.filter_cons]

/-! ## Claim theorems -/

/-- Claim C1: with the source file present, `update_csv_from_html`
performs extraction exactly when the output is absent, or the update is
forced, or the source's modification timestamp is strictly newer than the
output's; and after a successful proceed-and-write the output's
modification timestamp equals the source's exactly. -/
theorem c1_staleness_gate (today : String) (doc : List Elem) (force_update : Bool)
    (st : GateState) (hsrc : st.htmlExists = true) :
    ((update_csv_from_html today doc force_update st).extracted =
      (!st.csvExists || force_update || decide (st.csvMtime < st.htmlMtime))) ∧
    ((update_csv_from_html today doc force_update st).wrote = true →
      (update_csv_from_html today doc force_update st).csvMtimeAfter = st.htmlMtime ∧
      (update_csv_from_html today doc force_update st).csvExistsAfter = true) := by
  unfold update_csv_from_html
  rw [hsrc]
  rcases le_or_lt st.htmlMtime st.csvMtime with hle | hlt
  · have hnlt : ¬ st.csvMtime < st.htmlMtime := not_lt.mpr hle
    cases hcsv : st.csvExists <;> cases force_update <;>
      by_cases hempty : (get_all_games_from_schedule today doc).isEmpty <;>
        simp_all
  · cases hcsv : st.csvExists <;> cases force_update <;>
      by_cases hempty : (get_all_games_from_schedule today doc).isEmpty <;>
        simp_all [not_le.mpr hlt]

/-- Witness for C1: source present and strictly newer than the existing
output, a document with one game: extraction proceeds and the output's
timestamp is set to the source's. -/
theorem c1_staleness_gate_witness :
    (update_csv_from_html ("T") docEx false gateStEx).extracted = true ∧
    (update_csv_from_html ("T") docEx false gateStEx).csvMtimeAfter = 100 ∧
    (update_csv_from_html ("T") docEx false gateStEx).csvExistsAfter = true := by
  have h := c1_staleness_gate ("T") docEx false gateStEx rfl
  have hw : (update_csv_from_html ("T") docEx false gateStEx).wrote = true := by decide
  exact ⟨by rw [h.1]; decide, (h.2 hw).1, (h.2 hw).2⟩

/-- Claim C2: on a fragment with at least two resolvable team links, the
normalizer emits a record whose score pair is exactly the claim's policy
applied to the parenthesized integer tokens of the flattened text: zero
tokens set neither score, one token sets only the first, two or more set
the first two in document order and ignore the rest. -/
theorem c2_score_normalization (date : String) (f : Fragment)
    (h : 2 ≤ f.teamLinks.length) :
    ∃ r, normalizeFragment date f = some r ∧
      (r.score1, r.score2) = assignScores (scanScores f.text.toList none) := by
  rcases hL : f.teamLinks with _ | ⟨t1, _ | ⟨t2, ts⟩⟩
  · rw [hL] at h; simp at h
  · rw [hL] at h; simp at h
  · refine ⟨_, by rw [normalizeFragment, hL], ?_⟩
    rcases hs : scanScores f.text.toList none with _ | ⟨a, _ | ⟨b, tl⟩⟩ <;>
      simp [hs, assignScores]

/-- Witness for C2: a fragment with two team links and three tokens; the
first two become the scores. -/
theorem c2_score_normalization_witness :
    ∃ r, normalizeFragment dateEx fragEx = some r ∧
      (r.score1, r.score2) = assignScores (scanScores fragEx.text.toList none) :=
  c2_score_normalization dateEx fragEx (by decide)

/-- Claim C3 counterexample: the heading `Monday, June 1, 2024` contains a
comma and the four-digit year token 2024, so the claim requires it to be
adopted as the active date context; the code tests for the literal
substring `2025` and leaves the context unchanged. -/
theorem c3_counterexample :
    specAdoptHeading cexHeading = true ∧
    cexHeading ≠ todaysGames ∧
    headingStep ("T") cexHeading none = none := by
  refine ⟨by decide, by decide, by decide⟩

/-- Claim C3 as amended: a non-placeholder heading is adopted verbatim if
and only if its text contains both a comma and the literal four-digit
token `2025` (the year of this schedule); any other heading text leaves
the context unchanged.  The code's non-emptiness test is subsumed by the
comma test. -/
theorem c3_heading_adoption (today t : String) (cur : Option String)
    (h : t ≠ todaysGames) :
    headingStep today t cur =
      if (t.toList.contains ',') && containsSub year2025.toList t.toList then some t
      else cur := by
  unfold headingStep
  rw [if_neg h]
  by_cases ht : t = ""
  · subst ht
    simp [List.contains]
  · simp [ht]

/-- Witness for C3 (amended): a regular 2025 heading is adopted. -/
theorem c3_heading_adoption_witness :
    headingStep ("T") adoptedHeadingEx none = some adoptedHeadingEx := by
  rw [c3_heading_adoption ("T") adoptedHeadingEx none (by decide)]
  decide

/-- Claim C4: a document none of whose elements sets a date context (no
`h3` equal to the placeholder or containing a comma together with the
2025 token) extracts the empty sequence, however many game paragraphs it
contains. -/
theorem c4_no_date_headings (today : String) (doc : List Elem)
    (h : ∀ e ∈ doc, elemNonSetting e = true) :
    get_all_games_from_schedule today doc = [] :=
  extractGo_no_dates rfl h

/-- Witness for C4: two non-setting headings and two well-formed game
paragraphs extract nothing. -/
theorem c4_no_date_headings_witness :
    get_all_games_from_schedule ("T") docNoDatesEx = [] :=
  c4_no_date_headings ("T") docNoDatesEx (by decide)

/-- Claim C5 counterexample: for target `August 04, 2025` and a section
whose heading is that very text, tier 1 (the word-boundary regex) yields
zero matches — `\b4\b` cannot match inside `04` — while tier 2 (substring)
would match; the claim's two-tier policy therefore selects the section,
but the code, which picks the tier from the target's token count alone,
never falls back and selects nothing. -/
theorem c5_counterexample :
    tier1SectionPred (lowerChars c5Target.toList) (lowerChars c5Target.toList) = false ∧
    containsSub (lowerChars c5Target.toList) (lowerChars c5Target.toList) = true ∧
    matchingSections c5Target c5SectionDates = [] ∧
    specTwoTierSections c5Target c5SectionDates = c5SectionDates := by
  refine ⟨by decide, by decide, by decide, by decide⟩

/-- Claim C5 as amended: the tier is chosen from the target date alone —
when the lowercased target splits into at least three whitespace-separated
tokens, tier 1 (the token-bounded month/day/year regex) is applied to
every section and tier 2 is never consulted, even when tier 1 yields zero
matches; with fewer tokens only tier 2 (plain substring) is applied. -/
theorem c5_two_tier_matching (target_date : String) (sectionDates : List String) :
    matchingSections target_date sectionDates =
      (if 3 ≤ (splitWs (lowerChars target_date.toList)).length then
        sectionDates.filter
          (fun s => tier1SectionPred (lowerChars target_date.toList) (lowerChars s.toList))
      else
        sectionDates.filter
          (fun s => containsSub (lowerChars target_date.toList) (lowerChars s.toList))) :=
  matchingGo_eq (lowerChars target_date.toList) sectionDates

/-- Claim C6: both sink writers are no-ops on the empty record sequence:
the file system is untouched (no file created or modified, in particular
no empty file) and the informational message is the only output. -/
theorem c6_empty_sinks (csvPath jsonPath : String) (fs : FS) :
    save_to_csv [] csvPath fs = (fs, [noGamesMsg]) ∧
    save_to_json [] jsonPath fs = (fs, [noGamesMsg]) :=
  ⟨rfl, rfl⟩

/-- Claim C7: the extractor is deterministic in its input: two runs on the
same parsed document under the same ambient date produce identical output
sequences — the embedding is a pure function of the document, mirroring
the source, which re-reads and re-parses on every call and keeps no state
across calls. -/
theorem c7_extractor_deterministic (today : String) (doc : List Elem) :
    get_all_games_from_schedule today doc = get_all_games_from_schedule today doc :=
  rfl

/-- Claim C8: the odds peripheral's name-to-code mapping returns the
table's code for every key of the table — in particular `ARI` for
`Arizona Diamondbacks` — and passes any non-key name through unchanged. -/
theorem c8_team_code_map :
    teamCode ("Arizona Diamondbacks") = "ARI" ∧
    ∀ name : String,
      (∀ code, (name, code) ∈ TEAM_CODE_MAP → teamCode name = code) ∧
      (name ∉ TEAM_CODE_MAP.map Prod.fst → teamCode name = name) := by
  refine ⟨by decide, fun name => ⟨fun code hmem => ?_, fun hnk => ?_⟩⟩
  · unfold teamCode
    rw [lookupCode_of_mem (by decide) hmem]
  · unfold teamCode
    rw [lookupCode_of_not_mem hnk]

/-- Witness for C8: the claim's concrete key, and a non-key that passes
through unchanged. -/
theorem c8_team_code_map_witness :
    teamCode ("Arizona Diamondbacks") = "ARI" ∧
    teamCode ("Guardians") = "Guardians" :=
  ⟨(c8_team_code_map.2 ("Arizona Diamondbacks")).1 ("ARI") (by decide),
   (c8_team_code_map.2 ("Guardians")).2 (by decide)⟩

/-- Claim C9: every record the canonical extractor emits has both team
fields set — a record is appended only after two team links resolve. -/
theorem c9_teams_always_present (today : String) (doc : List Elem) (r : GameRecord)
    (h : r ∈ get_all_games_from_schedule today doc) :
    r.team1 ≠ none ∧ r.team2 ≠ none := by
  obtain ⟨d, f, hn⟩ := mem_extractGo h
  exact ⟨(normalizeFragment_some hn).1, (normalizeFragment_some hn).2.1⟩

/-- Witness for C9: the record extracted from the concrete document has
both teams. -/
theorem c9_teams_always_present_witness :
    recEx.team1 ≠ none ∧ recEx.team2 ≠ none :=
  c9_teams_always_present ("T") docEx recEx (by decide)

/-- Claim C10: every record the canonical extractor emits has
`game_type = None` — the field is initialized to `None` and never
assigned, exhibition fragments being skipped before emission. -/
theorem c10_game_type_always_none (today : String) (doc : List Elem) (r : GameRecord)
    (h : r ∈ get_all_games_from_schedule today doc) :
    r.game_type = none := by
  obtain ⟨d, f, hn⟩ := mem_extractGo h
  exact (normalizeFragment_some hn).2.2

/-- Witness for C10: the record extracted from the concrete document has
no game type. -/
theorem c10_game_type_always_none_witness :
    recEx.game_type = none :=
  c10_game_type_always_none ("T") docEx recEx (by decide)

end MLBScraper
